import Mathlib

/-
Verification of the alignment pipeline in reverseReadIns/align.py and
reverseReadIns/plot_alignment.py.

Lines and textual fields are represented as List Char (Python str).
Python's unbounded integers are represented as Int.
Fallible Python code (uncaught exceptions such as int() on a non-numeric
string) is represented with Option: a `none` result models an exception
propagating out of the function.
-/

/-- Python str.strip(): remove leading and trailing whitespace. -/
def pyStrip (s : List Char) : List Char :=
  ((s.dropWhile Char.isWhitespace).reverse.dropWhile Char.isWhitespace).reverse

/-- Python line.split(chr(9)): split on every tab character, keeping empty parts. -/
def pySplitTab : List Char → List (List Char)
  | [] => [[]]
  | c :: cs =>
    match pySplitTab cs with
    | [] => [[]]
    | p :: ps => if c = '\t' then [] :: p :: ps else (c :: p) :: ps

/-- Numeric value of a list of decimal digit characters (base 10, left fold). -/
def pyDigitsVal (ds : List Char) : Nat :=
  ds.foldl (fun n c => 10 * n + (c.toNat - 48)) 0

/-- Python int(s) on a string: strips whitespace, allows an optional sign
followed by at least one decimal digit; any other input raises (none). -/
def pyInt? (s : List Char) : Option Int :=
  match pyStrip s with
  | [] => none
  | '+' :: ds =>
    if ds ≠ [] ∧ (∀ c ∈ ds, c.isDigit) then some (pyDigitsVal ds) else none
  | '-' :: ds =>
    if ds ≠ [] ∧ (∀ c ∈ ds, c.isDigit) then some (-(pyDigitsVal ds : Int)) else none
  | ds =>
    if ∀ c ∈ ds, c.isDigit then some (pyDigitsVal ds) else none

/-- Python line.startswith(chr(64)): true when the first character is the
header marker at-sign. -/
def lineIsHeader (line : List Char) : Bool :=
  match line with
  | c :: _ => c = '@'
  | [] => false

/-- One accepted alignment record, as appended to `results` in parse_sam_file. -/
structure SamRecord where
  read_id : List Char
  ref_pos : Int
  mapq : Int
  cigar : List Char
  sequence : List Char
deriving DecidableEq

/-- The stats dictionary returned by parse_sam_file. -/
structure SamStats where
  total_reads : Nat
  unmapped : Nat
  low_mapq : Nat
  mapped_high_qual : Nat
deriving DecidableEq

/-- The mutable state of the parse_sam_file loop: the results list and the
three counters updated while iterating over the lines of the file. -/
structure ParseState where
  results : List SamRecord
  total_reads : Nat
  unmapped : Nat
  low_mapq : Nat
deriving DecidableEq

/-- The body of the per-line loop of parse_sam_file (align.py lines 73-101).
Header lines are skipped; every other line increments total_reads; lines
with fewer than 11 tab-separated fields are skipped; then
flag = int(fields[1]) and mapq = int(fields[4]) are both computed (a
failure of either is an uncaught exception, modelled as none); flag bit
0x4 sends the line to unmapped, mapq < 20 to low_mapq, and otherwise an
accepted record is appended (ref_pos = int(fields[3]) may also raise). -/
def parse_sam_line (st : ParseState) (line : List Char) : Option ParseState :=
  if lineIsHeader line then some st
  else if (pySplitTab (pyStrip line)).length < 11 then
    some { st with total_reads := st.total_reads + 1 }
  else
    match pyInt? ((pySplitTab (pyStrip line)).getD 1 []),
          pyInt? ((pySplitTab (pyStrip line)).getD 4 []) with
    | some flag, some mapq =>
      if Int.land flag 4 ≠ 0 then
        some { st with total_reads := st.total_reads + 1, unmapped := st.unmapped + 1 }
      else if mapq < 20 then
        some { st with total_reads := st.total_reads + 1, low_mapq := st.low_mapq + 1 }
      else
        match pyInt? ((pySplitTab (pyStrip line)).getD 3 []) with
        | some rp =>
          some ⟨st.results ++
                  [⟨(pySplitTab (pyStrip line)).getD 0 [], rp, mapq,
                    (pySplitTab (pyStrip line)).getD 5 [],
                    (pySplitTab (pyStrip line)).getD 9 []⟩],
                st.total_reads + 1, st.unmapped, st.low_mapq⟩
        | none => none
    | _, _ => none

/-- The parse_sam_file loop over all lines of the file. -/
def parseSamAux : ParseState → List (List Char) → Option ParseState
  | st, [] => some st
  | st, l :: ls =>
    match parse_sam_line st l with
    | none => none
    | some st2 => parseSamAux st2 ls

/-- parse_sam_file (align.py lines 63-118): returns the accepted records in
file order and the stats dictionary, whose mapped_high_qual entry is
len(results). -/
def parse_sam_file (lines : List (List Char)) : Option (List SamRecord × SamStats) :=
  (parseSamAux ⟨[], 0, 0, 0⟩ lines).map fun st =>
    (st.results, ⟨st.total_reads, st.unmapped, st.low_mapq, st.results.length⟩)

/-- Modelled from the spec: the complement table of the external Biopython
Seq.reverse_complement used by reverse_complement_sequence, restricted to
the nucleotide alphabet A, C, G, T named by the spec (other characters are
left as they are; the claims only concern this alphabet). -/
def complementChar (c : Char) : Char :=
  if c = 'A' then 'T'
  else if c = 'C' then 'G'
  else if c = 'G' then 'C'
  else if c = 'T' then 'A'
  else c

/-- Modelled from the spec: str(Seq(s).reverse_complement()) of Biopython,
the complement of every character, reversed. -/
def seqReverseComplement (s : List Char) : List Char :=
  (s.map complementChar).reverse

/-- reverse_complement_sequence (align.py lines 47-61). The argument is
Option (List Char): none models a missing value (pd.isna true), in which
case the function returns None; a stripped-empty string also returns None;
otherwise the reverse complement of the stripped string is returned. -/
def reverse_complement_sequence (seq : Option (List Char)) : Option (List Char) :=
  match seq with
  | none => none
  | some s =>
    if pyStrip s = [] then none else some (seqReverseComplement (pyStrip s))

/-- Outcome of the bowtie2 subprocess invocation in process_chunk: normal
termination with the SAM lines it wrote, a CalledProcessError (exit status
nonzero; the Bool records whether the partially written record-output file
exists on disk), or a launch failure (for example FileNotFoundError when
the binary is absent), which subprocess.run raises directly. -/
inductive AlignerResult where
  | ok (samLines : List (List Char))
  | calledProcessError (outputFileCreated : Bool)
  | launchError
deriving DecidableEq

/-- What process_chunk leaves behind: its return value together with
whether each of the two temporary per-batch files still exists. -/
structure ChunkResult where
  results : List SamRecord
  stats : SamStats
  tempFastaExists : Bool
  samOutputExists : Bool
deriving DecidableEq

/-- process_chunk (align.py lines 169-189), from the subprocess.run call
onward, as a function of the aligner outcome. Only CalledProcessError is
caught: that handler removes the temporary FASTA (but not the record-output
file) and returns empty results with all-zero stats. A launch failure is
an uncaught exception (none), aborting the run. On success the SAM output
is parsed (a parse exception also propagates) and both temporary files are
removed. -/
def process_chunk (res : AlignerResult) : Option ChunkResult :=
  match res with
  | .launchError => none
  | .calledProcessError created =>
    some ⟨[], ⟨0, 0, 0, 0⟩, false, created⟩
  | .ok samLines =>
    match parse_sam_file samLines with
    | none => none
    | some (rs, st) => some ⟨rs, st, false, false⟩

/-- The per-key accumulation of batch stats into running totals performed
by main (align.py lines 222-230). -/
def addStats (a b : SamStats) : SamStats :=
  ⟨a.total_reads + b.total_reads, a.unmapped + b.unmapped,
   a.low_mapq + b.low_mapq, a.mapped_high_qual + b.mapped_high_qual⟩

/-- The partition equation claimed for BatchStats: total reads split into
unmapped, low-confidence and accepted. -/
def statsOk (s : SamStats) : Prop :=
  s.total_reads = s.unmapped + s.low_mapq + s.mapped_high_qual

/-- Indicator of a malformed data line: not a header, and fewer than 11
tab-separated fields after stripping. Such a line increments total_reads
in parse_sam_file but none of the three classification counters. -/
def malLine (l : List Char) : Nat :=
  if lineIsHeader l = false ∧ (pySplitTab (pyStrip l)).length < 11 then 1 else 0

/-- Number of malformed (fewer than 11 fields) data lines of a file. -/
def malformedCount (lines : List (List Char)) : Nat :=
  (lines.map malLine).sum

/-- The accepted record a single line contributes, written directly from
the spec's description of the Parser: skip headers and short lines, drop
records with flag bit 0x4 set or mapq below 20, and otherwise keep the
extracted record. Used to state that parse_sam_file returns exactly the
accepted records in file order. -/
def acceptedRecordSpec (l : List Char) : Option SamRecord :=
  if lineIsHeader l then none
  else if (pySplitTab (pyStrip l)).length < 11 then none
  else
    match pyInt? ((pySplitTab (pyStrip l)).getD 1 []),
          pyInt? ((pySplitTab (pyStrip l)).getD 4 []),
          pyInt? ((pySplitTab (pyStrip l)).getD 3 []) with
    | some flag, some mapq, some rp =>
      if Int.land flag 4 ≠ 0 then none
      else if mapq < 20 then none
      else some ⟨(pySplitTab (pyStrip l)).getD 0 [], rp, mapq,
                 (pySplitTab (pyStrip l)).getD 5 [], (pySplitTab (pyStrip l)).getD 9 []⟩
    | _, _, _ => none

/-- The accepted records of a whole file, in file order. -/
def acceptedRecordsSpec (lines : List (List Char)) : List SamRecord :=
  lines.filterMap acceptedRecordSpec

/-- The loop of get_read_length (plot_alignment.py lines 47-57): scan the
CIGAR string left to right, accumulating the current run of digits
(current_num, none when the accumulator string is empty; int() on an empty
accumulator raises, modelled as none) and adding the run length for the
reference-consuming operations M, equals-sign and X; the other operation
characters I, D, N, S, H, P reset the accumulator without adding; any
other character is ignored. -/
def getReadLengthAux : List Char → Option Nat → Nat → Option Nat
  | [], _, len => some len
  | c :: cs, curr, len =>
    if c.isDigit then
      getReadLengthAux cs (some (10 * curr.getD 0 + (c.toNat - 48))) len
    else if c = 'M' ∨ c = '=' ∨ c = 'X' then
      match curr with
      | some n => getReadLengthAux cs none (len + n)
      | none => none
    else if c = 'I' ∨ c = 'D' ∨ c = 'N' ∨ c = 'S' ∨ c = 'H' ∨ c = 'P' then
      getReadLengthAux cs none len
    else
      getReadLengthAux cs curr len

/-- get_read_length of plot_alignment.py: the reference span length of a
CIGAR string. -/
def get_read_length (cigar : List Char) : Option Nat :=
  getReadLengthAux cigar none 0

/-- One row of the alignment results table consumed by
plot_alignment_coverage: a reference position and a CIGAR string. -/
structure CovRow where
  ref_pos : Int
  cigar : List Char

/-- The per-row body of the coverage loop (plot_alignment.py lines 59-72).
The coverage array of size end_pos - start_pos + 1 is represented by a
function from the index (position minus start_pos) to the count; the numpy
slice assignment coverage[start_idx:end_idx] += 1 increments exactly the
indices i with start_idx ≤ i < end_idx, where
start_idx = max(0, read_start - start_pos) and
end_idx = min(end_pos - start_pos, read_end - start_pos). -/
def applyRow (start_pos end_pos : Int) (cov : Int → Nat) (row : CovRow) : Option (Int → Nat) :=
  (get_read_length row.cigar).map fun L =>
    let read_start := row.ref_pos
    let read_end := read_start + Int.ofNat L
    if start_pos ≤ read_end ∧ read_start ≤ end_pos then
      fun i =>
        if max 0 (read_start - start_pos) ≤ i ∧
            i < min (end_pos - start_pos) (read_end - start_pos)
        then cov i + 1 else cov i
    else cov

/-- The coverage loop over all rows of the table, in table order. -/
def coverRows (start_pos end_pos : Int) : (Int → Nat) → List CovRow → Option (Int → Nat)
  | cov, [] => some cov
  | cov, r :: rs =>
    match applyRow start_pos end_pos cov r with
    | none => none
    | some cov2 => coverRows start_pos end_pos cov2 rs

/-- The coverage computation of plot_alignment_coverage: start from the
all-zero array and apply every row. Index i of the result is the depth at
reference position start_pos + i. -/
def plot_alignment_coverage (rows : List CovRow) (start_pos end_pos : Int) :
    Option (Int → Nat) :=
  coverRows start_pos end_pos (fun _ => 0) rows

/-- The nine CIGAR operation characters recognised by get_read_length. -/
def cigarOpChars : List Char := ['M', 'I', 'D', 'N', 'S', 'H', 'P', '=', 'X']

/-- The three operation characters that consume the reference. -/
def refConsumingChars : List Char := ['M', '=', 'X']

/-- Render a list of (digit run, operation character) CIGAR tokens back
into the character string get_read_length receives. -/
def renderTokens : List (List Char × Char) → List Char
  | [] => []
  | t :: ts => t.1 ++ t.2 :: renderTokens ts

/-- A well-formed CIGAR token: a nonempty run of decimal digits followed
by one of the nine operation characters. -/
def wfToken (t : List Char × Char) : Prop :=
  t.1 ≠ [] ∧ (∀ c ∈ t.1, c.isDigit) ∧ t.2 ∈ cigarOpChars

/-- A well-formed CIGAR string, as a token list. -/
def wfTokens (ts : List (List Char × Char)) : Prop :=
  ∀ t ∈ ts, wfToken t

/-- The reference span of a CIGAR token list: the sum of the lengths of
the tokens whose operation consumes the reference (M, equals-sign, X). -/
def refSpanTokens : List (List Char × Char) → Nat
  | [] => 0
  | t :: ts => (if t.2 ∈ refConsumingChars then pyDigitsVal t.1 else 0) + refSpanTokens ts


/-- Full case analysis of one successful parse_sam_line step: the line is a
header (state unchanged), a malformed short line (only total_reads moves),
an unmapped line, a low-quality line, or an accepted line, and in each case
the contribution agrees with acceptedRecordSpec and malLine. -/
lemma parse_sam_line_chars (st : ParseState) (l : List Char) (st' : ParseState)
    (h : parse_sam_line st l = some st') :
    (st' = st ∧ acceptedRecordSpec l = none ∧ malLine l = 0) ∨
    (st' = ⟨st.results, st.total_reads + 1, st.unmapped, st.low_mapq⟩ ∧
      acceptedRecordSpec l = none ∧ malLine l = 1) ∨
    (st' = ⟨st.results, st.total_reads + 1, st.unmapped + 1, st.low_mapq⟩ ∧
      acceptedRecordSpec l = none ∧ malLine l = 0) ∨
    (st' = ⟨st.results, st.total_reads + 1, st.unmapped, st.low_mapq + 1⟩ ∧
      acceptedRecordSpec l = none ∧ malLine l = 0) ∨
    (∃ r, st' = ⟨st.results ++ [r], st.total_reads + 1, st.unmapped, st.low_mapq⟩ ∧
      acceptedRecordSpec l = some r ∧ malLine l = 0) := by
  unfold parse_sam_line at h
  by_cases hH : lineIsHeader l = true
  · rw [if_pos hH] at h
    injection h with h
    refine Or.inl ⟨h.symm, ?_, ?_⟩
    · unfold acceptedRecordSpec
      rw [if_pos hH]
    · unfold malLine
      rw [if_neg]
      simp [hH]
  · rw [if_neg hH] at h
    have hHf : lineIsHeader l = false := by
      revert hH
      cases lineIsHeader l <;> simp
    by_cases hLen : (pySplitTab (pyStrip l)).length < 11
    · rw [if_pos hLen] at h
      injection h with h
      refine Or.inr (Or.inl ⟨h.symm, ?_, ?_⟩)
      · unfold acceptedRecordSpec
        rw [if_neg hH, if_pos hLen]
      · unfold malLine
        rw [if_pos ⟨hHf, hLen⟩]
    · rw [if_neg hLen] at h
      have hmal : malLine l = 0 := by
        unfold malLine
        rw [if_neg]
        intro hc
        exact hLen hc.2
      cases h1 : pyInt? ((pySplitTab (pyStrip l)).getD 1 []) with
      | none =>
        rw [h1] at h
        exact absurd h (by simp)
      | some flag =>
        cases h4 : pyInt? ((pySplitTab (pyStrip l)).getD 4 []) with
        | none =>
          rw [h1, h4] at h
          exact absurd h (by simp)
        | some mapq =>
          rw [h1, h4] at h
          dsimp only [] at h
          have hacc : acceptedRecordSpec l =
              (if Int.land flag 4 ≠ 0 then none
               else if mapq < 20 then none
               else match pyInt? ((pySplitTab (pyStrip l)).getD 3 []) with
                 | some rp =>
                   some ⟨(pySplitTab (pyStrip l)).getD 0 [], rp, mapq,
                         (pySplitTab (pyStrip l)).getD 5 [],
                         (pySplitTab (pyStrip l)).getD 9 []⟩
                 | none => none) := by
            unfold acceptedRecordSpec
            rw [if_neg hH, if_neg hLen, h1, h4]
            cases h3 : pyInt? ((pySplitTab (pyStrip l)).getD 3 []) with
            | none =>
              by_cases hbit : Int.land flag 4 ≠ 0
              · rw [if_pos hbit]
              · rw [if_neg hbit]
                by_cases hq : mapq < 20
                · rw [if_pos hq]
                · rw [if_neg hq]
            | some rp => rfl
          by_cases hbit : Int.land flag 4 ≠ 0
          · rw [if_pos hbit] at h
            injection h with h
            refine Or.inr (Or.inr (Or.inl ⟨h.symm, ?_, hmal⟩))
            rw [hacc, if_pos hbit]
          · rw [if_neg hbit] at h
            by_cases hq : mapq < 20
            · rw [if_pos hq] at h
              injection h with h
              refine Or.inr (Or.inr (Or.inr (Or.inl ⟨h.symm, ?_, hmal⟩)))
              rw [hacc, if_neg hbit, if_pos hq]
            · rw [if_neg hq] at h
              cases h3 : pyInt? ((pySplitTab (pyStrip l)).getD 3 []) with
              | none =>
                rw [h3] at h
                exact absurd h (by simp)
              | some rp =>
                rw [h3] at h
                dsimp only [] at h
                injection h with h
                refine Or.inr (Or.inr (Or.inr (Or.inr ⟨_, h.symm, ?_, hmal⟩)))
                rw [hacc, if_neg hbit, if_neg hq, h3]

/-- One parse step moves total_reads by exactly the sum of the moves of the
three classification counters plus the malformed-line indicator. -/
lemma parse_sam_line_sum (st : ParseState) (l : List Char) (st' : ParseState)
    (h : parse_sam_line st l = some st') :
    st'.total_reads + st.unmapped + st.low_mapq + st.results.length
      = st.total_reads + malLine l + st'.unmapped + st'.low_mapq + st'.results.length := by
  rcases parse_sam_line_chars st l st' h with
    ⟨rfl, _, hm⟩ | ⟨rfl, _, hm⟩ | ⟨rfl, _, hm⟩ | ⟨rfl, _, hm⟩ | ⟨r, rfl, _, hm⟩ <;>
    simp [hm] <;> omega

/-- One parse step appends exactly the accepted record of the line (if any)
to the results list. -/
lemma parse_sam_line_results (st : ParseState) (l : List Char) (st' : ParseState)
    (h : parse_sam_line st l = some st') :
    st'.results = st.results ++ (acceptedRecordSpec l).toList := by
  rcases parse_sam_line_chars st l st' h with
    ⟨rfl, ha, _⟩ | ⟨rfl, ha, _⟩ | ⟨rfl, ha, _⟩ | ⟨rfl, ha, _⟩ | ⟨r, rfl, ha, _⟩ <;>
    simp [ha]

/-- Over a whole file, total_reads grows by the malformed-line count plus
the growth of the three classification counters and the results list. -/
lemma parseSamAux_sum (lines : List (List Char)) :
    ∀ st st' : ParseState, parseSamAux st lines = some st' →
      st'.total_reads + st.unmapped + st.low_mapq + st.results.length
        = st.total_reads + malformedCount lines
          + st'.unmapped + st'.low_mapq + st'.results.length := by
  induction lines with
  | nil =>
    intro st st' h
    simp only [parseSamAux, Option.some.injEq] at h
    subst h
    simp [malformedCount]
  | cons l ls ih =>
    intro st st' h
    simp only [parseSamAux] at h
    cases hstep : parse_sam_line st l with
    | none =>
      rw [hstep] at h
      cases h
    | some st2 =>
      rw [hstep] at h
      have h1 := parse_sam_line_sum st l st2 hstep
      have h2 := ih st2 st' h
      have hm : malformedCount (l :: ls) = malLine l + malformedCount ls := by
        simp [malformedCount]
      omega

/-- Over a whole file, the results list grows by exactly the accepted
records of the lines, in file order. -/
lemma parseSamAux_results (lines : List (List Char)) :
    ∀ st st' : ParseState, parseSamAux st lines = some st' →
      st'.results = st.results ++ acceptedRecordsSpec lines := by
  induction lines with
  | nil =>
    intro st st' h
    simp only [parseSamAux, Option.some.injEq] at h
    subst h
    simp [acceptedRecordsSpec]
  | cons l ls ih =>
    intro st st' h
    simp only [parseSamAux] at h
    cases hstep : parse_sam_line st l with
    | none =>
      rw [hstep] at h
      cases h
    | some st2 =>
      rw [hstep] at h
      have h1 := parse_sam_line_results st l st2 hstep
      have h2 := ih st2 st' h
      have hm : acceptedRecordsSpec (l :: ls)
          = (acceptedRecordSpec l).toList ++ acceptedRecordsSpec ls := by
        cases ha : acceptedRecordSpec l <;>
          simp [acceptedRecordsSpec, List.filterMap_cons, ha]
      rw [h2, h1, hm, List.append_assoc]

/-- None of the nine CIGAR operation characters is a decimal digit. -/
lemma cigarOp_not_digit : ∀ c ∈ cigarOpChars, c.isDigit = false := by decide

/-- Feeding a nonempty run of digit characters into the get_read_length
loop folds them into the current_num accumulator and touches nothing
else. -/
lemma getReadLengthAux_digits :
    ∀ ds : List Char, ds ≠ [] → (∀ c ∈ ds, c.isDigit) →
      ∀ (rest : List Char) (curr : Option Nat) (len : Nat),
        getReadLengthAux (ds ++ rest) curr len
          = getReadLengthAux rest
              (some (ds.foldl (fun n c => 10 * n + (c.toNat - 48)) (curr.getD 0))) len := by
  intro ds
  induction ds with
  | nil => intro h; exact absurd rfl h
  | cons c ds ih =>
    intro _ hd rest curr len
    have hc : c.isDigit := hd c (by simp)
    cases ds with
    | nil =>
      simp [getReadLengthAux, hc]
    | cons c2 ds2 =>
      have step := ih (by simp) (fun x hx => hd x (by simp [hx])) rest
        (some (10 * curr.getD 0 + (c.toNat - 48))) len
      calc getReadLengthAux ((c :: c2 :: ds2) ++ rest) curr len
          = getReadLengthAux ((c2 :: ds2) ++ rest)
              (some (10 * curr.getD 0 + (c.toNat - 48))) len := by
            simp [getReadLengthAux, hc]
        _ = getReadLengthAux rest
              (some ((c2 :: ds2).foldl (fun n x => 10 * n + (x.toNat - 48))
                (10 * curr.getD 0 + (c.toNat - 48)))) len := step
        _ = getReadLengthAux rest
              (some ((c :: c2 :: ds2).foldl (fun n x => 10 * n + (x.toNat - 48))
                (curr.getD 0))) len := by
            simp [List.foldl_cons]

/-- On a rendered well-formed token list, the get_read_length loop returns
the accumulated length plus the reference span of the tokens. -/
lemma getReadLengthAux_tokens :
    ∀ ts : List (List Char × Char), wfTokens ts →
      ∀ len : Nat, getReadLengthAux (renderTokens ts) none len
        = some (len + refSpanTokens ts) := by
  intro ts
  induction ts with
  | nil =>
    intro _ len
    simp [renderTokens, getReadLengthAux, refSpanTokens]
  | cons t ts ih =>
    intro hwf len
    obtain ⟨hne, hdig, hop⟩ := hwf t (by simp)
    have hrest : wfTokens ts := fun x hx => hwf x (List.mem_cons_of_mem t hx)
    have hfeed := getReadLengthAux_digits t.1 hne hdig (t.2 :: renderTokens ts) none len
    have hval : (t.1.foldl (fun n c => 10 * n + (c.toNat - 48)) ((none : Option Nat).getD 0))
        = pyDigitsVal t.1 := by
      simp [pyDigitsVal]
    rw [renderTokens, hfeed, hval]
    have hnd : t.2.isDigit = false := cigarOp_not_digit t.2 hop
    simp only [cigarOpChars, List.mem_cons, List.not_mem_nil, or_false] at hop
    have hspan : refSpanTokens (t :: ts)
        = (if t.2 ∈ refConsumingChars then pyDigitsVal t.1 else 0) + refSpanTokens ts := rfl
    rcases hop with h2 | h2 | h2 | h2 | h2 | h2 | h2 | h2 | h2 <;>
      rw [hspan, h2] <;>
      simp only [getReadLengthAux, hnd, h2, refConsumingChars, List.mem_cons,
        List.mem_singleton] <;>
      simp [ih hrest, Nat.add_assoc]

/-- Pointwise description of one coverage-loop iteration: position index i
is incremented exactly when the row passes the window test and i lies in
the numpy slice [start_idx, end_idx). -/
lemma applyRow_point (sp ep : Int) (cov : Int → Nat) (row : CovRow) (L : Nat)
    (hL : get_read_length row.cigar = some L) (f : Int → Nat)
    (hf : applyRow sp ep cov row = some f) (i : Int) :
    f i = if sp ≤ row.ref_pos + Int.ofNat L ∧ row.ref_pos ≤ ep ∧
              max 0 (row.ref_pos - sp) ≤ i ∧
              i < min (ep - sp) (row.ref_pos + Int.ofNat L - sp)
          then cov i + 1 else cov i := by
  unfold applyRow at hf
  rw [hL] at hf
  simp only [Option.map_some', Option.some.injEq] at hf
  subst hf
  by_cases hwin : sp ≤ row.ref_pos + Int.ofNat L ∧ row.ref_pos ≤ ep
  · rw [if_pos hwin]
    by_cases hin : max 0 (row.ref_pos - sp) ≤ i ∧
        i < min (ep - sp) (row.ref_pos + Int.ofNat L - sp)
    · rw [if_pos hin, if_pos ⟨hwin.1, hwin.2, hin.1, hin.2⟩]
    · rw [if_neg hin, if_neg]
      intro hc
      exact hin ⟨hc.2.2.1, hc.2.2.2⟩
  · rw [if_neg hwin, if_neg]
    intro hc
    exact hwin ⟨hc.1, hc.2.1⟩

instance statsOkDecidable (s : SamStats) : Decidable (statsOk s) :=
  inferInstanceAs (Decidable (s.total_reads = s.unmapped + s.low_mapq + s.mapped_high_qual))

instance wfTokenDecidable (t : List Char × Char) : Decidable (wfToken t) :=
  inferInstanceAs (Decidable (t.1 ≠ [] ∧ (∀ c ∈ t.1, c.isDigit) ∧ t.2 ∈ cigarOpChars))

instance wfTokensDecidable (ts : List (List Char × Char)) : Decidable (wfTokens ts) :=
  inferInstanceAs (Decidable (∀ t ∈ ts, wfToken t))

/-- Summing batch stats that each satisfy the partition equation yields a
running total that satisfies it. -/
lemma foldl_addStats_ok (batches : List SamStats) :
    ∀ z : SamStats, statsOk z → (∀ s ∈ batches, statsOk s) →
      statsOk (batches.foldl addStats z) := by
  induction batches with
  | nil =>
    intro z hz _
    simpa using hz
  | cons b bs ih =>
    intro z hz hall
    simp only [List.foldl_cons]
    refine ih (addStats z b) ?_ (fun s hs => hall s (List.mem_cons_of_mem b hs))
    have hb := hall b (List.mem_cons_self b bs)
    unfold statsOk at hz hb ⊢
    unfold addStats
    simp only []
    omega

/-- C1 (amended): for every file on which the parser succeeds,
total_reads = unmapped + low_confidence + accepted + m, where m is the
number of malformed data lines (fewer than 11 fields); hence the claimed
equation total_reads = unmapped + low_confidence + accepted holds exactly
for files with no malformed data lines, and the orchestrator's running
totals preserve the equation over any sequence of batches whose stats
satisfy it. The claim as frozen fails for files containing malformed
lines, because parse_sam_file counts such a line in total_reads before
skipping it. -/
theorem C1_stats_partition :
    (∀ (lines : List (List Char)) (res : List SamRecord) (st : SamStats),
        parse_sam_file lines = some (res, st) →
        st.total_reads
          = st.unmapped + st.low_mapq + st.mapped_high_qual + malformedCount lines) ∧
    (∀ (lines : List (List Char)) (res : List SamRecord) (st : SamStats),
        parse_sam_file lines = some (res, st) → malformedCount lines = 0 →
        statsOk st) ∧
    (∀ batches : List SamStats, (∀ s ∈ batches, statsOk s) →
        statsOk (batches.foldl addStats ⟨0, 0, 0, 0⟩)) := by
  have key : ∀ (lines : List (List Char)) (res : List SamRecord) (st : SamStats),
      parse_sam_file lines = some (res, st) →
      st.total_reads
        = st.unmapped + st.low_mapq + st.mapped_high_qual + malformedCount lines := by
    intro lines res st h
    unfold parse_sam_file at h
    cases haux : parseSamAux ⟨[], 0, 0, 0⟩ lines with
    | none =>
      rw [haux] at h
      cases h
    | some s =>
      rw [haux] at h
      simp only [Option.map_some', Option.some.injEq, Prod.mk.injEq] at h
      have hsum := parseSamAux_sum lines ⟨[], 0, 0, 0⟩ s haux
      rw [← h.2]
      simp only [List.length_nil] at hsum
      simp only [] at hsum ⊢
      omega
  refine ⟨key, ?_, ?_⟩
  · intro lines res st h hz
    have hk := key lines res st h
    unfold statsOk
    omega
  · intro batches hall
    exact foldl_addStats_ok batches ⟨0, 0, 0, 0⟩ (by decide) hall

/-- C1 witness: a file with one header and one accepted data line
satisfies the partition equation with zero malformed lines, and a
two-batch running total satisfies the partition equation. -/
theorem C1_stats_partition_witness :
    ((⟨1, 0, 0, 1⟩ : SamStats).total_reads
      = (⟨1, 0, 0, 1⟩ : SamStats).unmapped + (⟨1, 0, 0, 1⟩ : SamStats).low_mapq
        + (⟨1, 0, 0, 1⟩ : SamStats).mapped_high_qual
        + malformedCount ["@h".data, "q\t0\tr\t7\t30\t5M\t*\t0\t0\tACGTA\tIIIII".data]) ∧
    statsOk ([⟨1, 0, 0, 1⟩, ⟨3, 1, 1, 1⟩].foldl addStats ⟨0, 0, 0, 0⟩) :=
  ⟨C1_stats_partition.1 ["@h".data, "q\t0\tr\t7\t30\t5M\t*\t0\t0\tACGTA\tIIIII".data]
      [⟨"q".data, 7, 30, "5M".data, "ACGTA".data⟩] ⟨1, 0, 0, 1⟩ (by decide),
   C1_stats_partition.2.2 [⟨1, 0, 0, 1⟩, ⟨3, 1, 1, 1⟩] (by decide)⟩

/-- C1 counterexample: a file whose only line has two fields is counted in
total_reads but in no classification counter, so the frozen claim's
equation fails: total_reads = 1 but unmapped + low_confidence + accepted
= 0. -/
theorem C1_counterexample :
    parse_sam_file ["a\tb".data] = some ([], ⟨1, 0, 0, 0⟩) ∧
      ¬ statsOk ⟨1, 0, 0, 0⟩ :=
  ⟨by decide, by decide⟩

/-- C2: evaluation of the coverage loop at the claim's own example. A
record at ref_pos 5 with CIGAR 20M spans reference interval [5,25) and is
queried against window [10,20]; the code increments the depth at positions
10 through 19 (indices 0 and 9 of the window array) but leaves position 20
(index 10) at depth 0, because the slice end index is capped at
end_pos - start_pos and the slice excludes its end. The claim requires
every position of the clipped interval [10,20], including 20, to be
incremented. -/
theorem C2_window_edge :
    (plot_alignment_coverage [⟨5, "20M".data⟩] 10 20).map
        (fun f => (f (10 - 10), f (19 - 10), f (20 - 10))) = some (1, 1, 0) := by
  decide

/-- C3: the Coverage Reconstructor's span computation and the claim's two
coverage scenarios. First, on every well-formed CIGAR token list the code
computes the reference span as the sum of the lengths of exactly the M,
equals-sign and X operations. Second, a single record at ref_pos 100 with
a 50-base reference span, in window [1,200], gives depth 1 exactly on
positions [100,149] and 0 elsewhere in the window. Third, adding a second
record covering [120,169] gives depth 2 exactly on positions [120,149]. -/
theorem C3_ref_span_and_coverage :
    (∀ ts : List (List Char × Char), wfTokens ts →
        get_read_length (renderTokens ts) = some (refSpanTokens ts)) ∧
    (∀ p : Int, 1 ≤ p → p ≤ 200 →
        (plot_alignment_coverage [⟨100, "50M".data⟩] 1 200).map (fun f => f (p - 1))
          = some (if 100 ≤ p ∧ p ≤ 149 then 1 else 0)) ∧
    (∀ p : Int, 1 ≤ p → p ≤ 200 →
        ((plot_alignment_coverage [⟨100, "50M".data⟩, ⟨120, "50M".data⟩] 1 200).map
            (fun f => f (p - 1)) = some 2 ↔ 120 ≤ p ∧ p ≤ 149)) := by
  have hgl : get_read_length "50M".data = some 50 := by decide
  refine ⟨?_, ?_, ?_⟩
  · intro ts hwf
    have h := getReadLengthAux_tokens ts hwf 0
    unfold get_read_length
    simpa using h
  · intro p hp1 hp2
    obtain ⟨f, hf⟩ : ∃ f, applyRow 1 200 (fun _ => 0) ⟨100, "50M".data⟩ = some f :=
      ⟨_, rfl⟩
    have hplot : plot_alignment_coverage [⟨100, "50M".data⟩] 1 200 = some f := by
      simp [plot_alignment_coverage, coverRows, hf]
    rw [hplot]
    simp only [Option.map_some', Option.some.injEq]
    have hpt := applyRow_point 1 200 (fun _ => 0) ⟨100, "50M".data⟩ 50 hgl f hf (p - 1)
    simp only [Int.ofNat_eq_coe, Nat.cast_ofNat] at hpt
    rw [hpt]
    by_cases hcase : 100 ≤ p ∧ p ≤ 149
    · rw [if_pos hcase, if_pos (by omega)]
    · rw [if_neg hcase, if_neg (by omega)]
  · intro p hp1 hp2
    obtain ⟨f1, hf1⟩ : ∃ f1, applyRow 1 200 (fun _ => 0) ⟨100, "50M".data⟩ = some f1 :=
      ⟨_, rfl⟩
    obtain ⟨f2, hf2⟩ : ∃ f2, applyRow 1 200 f1 ⟨120, "50M".data⟩ = some f2 := by
      unfold applyRow
      rw [hgl]
      exact ⟨_, rfl⟩
    have hplot : plot_alignment_coverage [⟨100, "50M".data⟩, ⟨120, "50M".data⟩] 1 200
        = some f2 := by
      simp [plot_alignment_coverage, coverRows, hf1, hf2]
    rw [hplot]
    simp only [Option.map_some', Option.some.injEq]
    have hpt1 := applyRow_point 1 200 (fun _ => 0) ⟨100, "50M".data⟩ 50 hgl f1 hf1 (p - 1)
    have hpt2 := applyRow_point 1 200 f1 ⟨120, "50M".data⟩ 50 hgl f2 hf2 (p - 1)
    simp only [Int.ofNat_eq_coe, Nat.cast_ofNat] at hpt1 hpt2
    rw [hpt2, hpt1]
    by_cases hc1 : (1:Int) ≤ 100 + 50 ∧ (100:Int) ≤ 200 ∧
        max 0 ((100:Int) - 1) ≤ p - 1 ∧ p - 1 < min ((200:Int) - 1) (100 + 50 - 1)
    · rw [if_pos hc1]
      by_cases hc2 : (1:Int) ≤ 120 + 50 ∧ (120:Int) ≤ 200 ∧
          max 0 ((120:Int) - 1) ≤ p - 1 ∧ p - 1 < min ((200:Int) - 1) (120 + 50 - 1)
      · rw [if_pos hc2]
        omega
      · rw [if_neg hc2]
        omega
    · rw [if_neg hc1]
      by_cases hc2 : (1:Int) ≤ 120 + 50 ∧ (120:Int) ≤ 200 ∧
          max 0 ((120:Int) - 1) ≤ p - 1 ∧ p - 1 < min ((200:Int) - 1) (120 + 50 - 1)
      · rw [if_pos hc2]
        omega
      · rw [if_neg hc2]
        omega

/-- C3 witness: the span of the token 50M equals 50, position 125 of the
single-record window has depth 1, and position 125 of the two-record
window has depth 2 (it lies in [120,149]). -/
theorem C3_witness :
    get_read_length (renderTokens [(['5', '0'], 'M')])
        = some (refSpanTokens [(['5', '0'], 'M')]) ∧
    (plot_alignment_coverage [⟨100, "50M".data⟩] 1 200).map (fun f => f (125 - 1))
        = some (if (100:Int) ≤ 125 ∧ (125:Int) ≤ 149 then 1 else 0) ∧
    ((plot_alignment_coverage [⟨100, "50M".data⟩, ⟨120, "50M".data⟩] 1 200).map
        (fun f => f (125 - 1)) = some 2 ↔ (120:Int) ≤ 125 ∧ (125:Int) ≤ 149) :=
  ⟨C3_ref_span_and_coverage.1 [(['5', '0'], 'M')] (by decide),
   C3_ref_span_and_coverage.2.1 125 (by decide) (by decide),
   C3_ref_span_and_coverage.2.2 125 (by decide) (by decide)⟩

/-- Over a file in which every line is a header or has fewer than 11
fields, the parse loop only advances total_reads, by the malformed-line
count. -/
lemma parseSamAux_skip (lines : List (List Char)) :
    ∀ st : ParseState,
      (∀ l ∈ lines, lineIsHeader l = true ∨ (pySplitTab (pyStrip l)).length < 11) →
      parseSamAux st lines
        = some ⟨st.results, st.total_reads + malformedCount lines,
                st.unmapped, st.low_mapq⟩ := by
  induction lines with
  | nil =>
    intro st _
    simp [parseSamAux, malformedCount]
  | cons l ls ih =>
    intro st hall
    have hrest : ∀ x ∈ ls, lineIsHeader x = true ∨ (pySplitTab (pyStrip x)).length < 11 :=
      fun x hx => hall x (List.mem_cons_of_mem l hx)
    by_cases hH : lineIsHeader l = true
    · have hstep : parse_sam_line st l = some st := by
        unfold parse_sam_line
        rw [if_pos hH]
      have hm : malformedCount (l :: ls) = malformedCount ls := by
        simp [malformedCount, malLine, hH]
      simp only [parseSamAux, hstep]
      rw [ih st hrest, hm]
    · have hLen : (pySplitTab (pyStrip l)).length < 11 := by
        rcases hall l (List.mem_cons_self l ls) with h | h
        · exact absurd h hH
        · exact h
      have hHf : lineIsHeader l = false := by
        revert hH
        cases lineIsHeader l <;> simp
      have hstep : parse_sam_line st l
          = some ⟨st.results, st.total_reads + 1, st.unmapped, st.low_mapq⟩ := by
        unfold parse_sam_line
        rw [if_neg hH, if_pos hLen]
      have hm : malformedCount (l :: ls) = 1 + malformedCount ls := by
        simp [malformedCount, malLine, hHf, hLen]
      simp only [parseSamAux, hstep]
      rw [ih _ hrest, hm]
      simp only [Option.some.injEq, ParseState.mk.injEq, true_and, and_true]
      omega

/-- C4 (amended): header lines and data lines with fewer than 11 fields
are indeed skipped without any error: a file of only such lines parses
successfully, returning no records, with only total_reads counting the
short lines. The frozen claim's further assertion that non-integer fields
also lead to a skip is false: int(fields[1]) and int(fields[4]) are
unguarded, so such a line raises an uncaught ValueError that aborts the
batch (see the counterexample). -/
theorem C4_header_short_skip (lines : List (List Char))
    (h : ∀ l ∈ lines, lineIsHeader l = true ∨ (pySplitTab (pyStrip l)).length < 11) :
    parse_sam_file lines = some ([], ⟨malformedCount lines, 0, 0, 0⟩) := by
  unfold parse_sam_file
  rw [parseSamAux_skip lines ⟨[], 0, 0, 0⟩ h]
  simp

/-- C4 witness: a header line plus a two-field line parse successfully
with one malformed line counted and nothing else. -/
theorem C4_header_short_skip_witness :
    (∀ l ∈ [("@x".data : List Char), "a\tb".data],
        lineIsHeader l = true ∨ (pySplitTab (pyStrip l)).length < 11) ∧
    parse_sam_file [("@x".data : List Char), "a\tb".data]
      = some ([], ⟨malformedCount [("@x".data : List Char), "a\tb".data], 0, 0, 0⟩) :=
  ⟨by decide, C4_header_short_skip [("@x".data : List Char), "a\tb".data] (by decide)⟩

/-- C4 counterexample: a data line with 11 fields whose bit-flag field is
the letter X makes the parser fail (uncaught int() exception aborting the
batch), contradicting the claim that the parser never fails fatally on a
data line. -/
theorem C4_counterexample :
    parse_sam_file ["q\tX\tr\t1\t30\t5M\t*\t0\t0\tACGTA\tIIIII".data] = none := by
  decide

/-- C5 (amended): when the aligner exits with nonzero status
(CalledProcessError), the batch contributes exactly zero counts, the run
is not aborted (process_chunk returns normally), and the prepared FASTA
file is deleted; but the record-output file is not deleted on this path
(it remains iff the failed invocation created it). The frozen claim also
asserts that a launch failure is handled the same way; in fact it is not
caught and aborts the run (see the counterexample). -/
theorem C5_failure_path (created : Bool) :
    process_chunk (.calledProcessError created)
      = some ⟨[], ⟨0, 0, 0, 0⟩, false, created⟩ := rfl

/-- C5 counterexample: when the failed invocation has created the
record-output file, process_chunk leaves it on disk, contradicting the
claim that both temporary files are deleted on the failure path; and a
launch failure is an uncaught exception aborting the run, contradicting
the claim that the orchestrator proceeds to the next batch. -/
theorem C5_counterexample :
    (process_chunk (.calledProcessError true)).map (fun c => c.samOutputExists)
        = some true ∧
      process_chunk .launchError = none :=
  ⟨rfl, rfl⟩

/-- C6: on any data line with at least 11 fields whose bit-flag field has
bit 0x4 set, the parser increments only unmapped (besides total_reads) and
leaves the results list unchanged, whatever the mapping-quality value is:
such a record is never present in the accepted output. -/
theorem C6_unmapped_discarded (st : ParseState) (l : List Char) (flag mapq : Int)
    (hH : lineIsHeader l = false)
    (hLen : ¬ (pySplitTab (pyStrip l)).length < 11)
    (h1 : pyInt? ((pySplitTab (pyStrip l)).getD 1 []) = some flag)
    (h4 : pyInt? ((pySplitTab (pyStrip l)).getD 4 []) = some mapq)
    (hbit : Int.land flag 4 ≠ 0) :
    parse_sam_line st l
      = some ⟨st.results, st.total_reads + 1, st.unmapped + 1, st.low_mapq⟩ := by
  unfold parse_sam_line
  rw [if_neg (by simp [hH]), if_neg hLen, h1, h4]
  dsimp only []
  rw [if_pos hbit]

/-- C6 witness: a line with flag 4 and mapping quality 99 is counted as
unmapped and produces no record. -/
theorem C6_unmapped_discarded_witness :
    (Int.land 4 4 ≠ 0) ∧
    parse_sam_line ⟨[], 0, 0, 0⟩ "r1\t4\tref\t100\t99\t10M\t*\t0\t0\tACGT\tIIII".data
      = some ⟨[], 1, 1, 0⟩ :=
  ⟨by decide,
   C6_unmapped_discarded ⟨[], 0, 0, 0⟩ "r1\t4\tref\t100\t99\t10M\t*\t0\t0\tACGT\tIIII".data
     4 99 (by decide) (by decide) (by decide) (by decide) (by decide)⟩

/-- C7: mapping-quality boundary on a mapped data line (flag bit 0x4
clear). A record whose mapq field parses to exactly 20 is appended to the
results (accepted); one whose mapq parses to 19 increments low_mapq and is
discarded. -/
theorem C7_mapq_boundary :
    (∀ (st : ParseState) (l : List Char) (flag rp : Int),
        lineIsHeader l = false →
        ¬ (pySplitTab (pyStrip l)).length < 11 →
        pyInt? ((pySplitTab (pyStrip l)).getD 1 []) = some flag →
        pyInt? ((pySplitTab (pyStrip l)).getD 4 []) = some 20 →
        Int.land flag 4 = 0 →
        pyInt? ((pySplitTab (pyStrip l)).getD 3 []) = some rp →
        parse_sam_line st l
          = some ⟨st.results ++
                    [⟨(pySplitTab (pyStrip l)).getD 0 [], rp, 20,
                      (pySplitTab (pyStrip l)).getD 5 [],
                      (pySplitTab (pyStrip l)).getD 9 []⟩],
                  st.total_reads + 1, st.unmapped, st.low_mapq⟩) ∧
    (∀ (st : ParseState) (l : List Char) (flag : Int),
        lineIsHeader l = false →
        ¬ (pySplitTab (pyStrip l)).length < 11 →
        pyInt? ((pySplitTab (pyStrip l)).getD 1 []) = some flag →
        pyInt? ((pySplitTab (pyStrip l)).getD 4 []) = some 19 →
        Int.land flag 4 = 0 →
        parse_sam_line st l
          = some ⟨st.results, st.total_reads + 1, st.unmapped, st.low_mapq + 1⟩) := by
  constructor
  · intro st l flag rp hH hLen h1 h4 hbit h3
    unfold parse_sam_line
    rw [if_neg (by simp [hH]), if_neg hLen, h1, h4]
    dsimp only []
    rw [if_neg (by simp [hbit]), if_neg (by decide : ¬ (20:Int) < 20), h3]
  · intro st l flag hH hLen h1 h4 hbit
    unfold parse_sam_line
    rw [if_neg (by simp [hH]), if_neg hLen, h1, h4]
    dsimp only []
    rw [if_neg (by simp [hbit]), if_pos (by decide : (19:Int) < 20)]

/-- C7 witness: a mapped line with mapq 20 is accepted into the results,
and a mapped line with mapq 19 increments low_mapq. -/
theorem C7_mapq_boundary_witness :
    parse_sam_line ⟨[], 0, 0, 0⟩ "r1\t0\tref\t100\t20\t10M\t*\t0\t0\tACGT\tIIII".data
        = some ⟨[⟨"r1".data, 100, 20, "10M".data, "ACGT".data⟩], 1, 0, 0⟩ ∧
    parse_sam_line ⟨[], 0, 0, 0⟩ "r1\t0\tref\t100\t19\t10M\t*\t0\t0\tACGT\tIIII".data
        = some ⟨[], 1, 0, 1⟩ :=
  ⟨C7_mapq_boundary.1 ⟨[], 0, 0, 0⟩ "r1\t0\tref\t100\t20\t10M\t*\t0\t0\tACGT\tIIII".data
     0 100 (by decide) (by decide) (by decide) (by decide) (by decide) (by decide),
   C7_mapq_boundary.2 ⟨[], 0, 0, 0⟩ "r1\t0\tref\t100\t19\t10M\t*\t0\t0\tACGT\tIIII".data
     0 (by decide) (by decide) (by decide) (by decide) (by decide)⟩

/-- dropWhile is the identity when no element satisfies the predicate. -/
lemma dropWhile_eq_self_of (p : Char → Bool) :
    ∀ s : List Char, (∀ c ∈ s, p c = false) → s.dropWhile p = s := by
  intro s h
  cases s with
  | nil => rfl
  | cons c cs => simp [List.dropWhile_cons, h c (List.mem_cons_self c cs)]

/-- Stripping is the identity on whitespace-free strings. -/
lemma pyStrip_id (s : List Char) (h : ∀ c ∈ s, c.isWhitespace = false) :
    pyStrip s = s := by
  unfold pyStrip
  rw [dropWhile_eq_self_of _ s h,
    dropWhile_eq_self_of _ s.reverse (fun c hc => h c (List.mem_reverse.mp hc)),
    List.reverse_reverse]

/-- The four nucleotide characters are not whitespace. -/
lemma acgt_not_whitespace : ∀ c ∈ ['A', 'C', 'G', 'T'], c.isWhitespace = false := by
  decide

/-- The complement of a nucleotide character is a nucleotide character. -/
lemma complementChar_mem : ∀ c ∈ ['A', 'C', 'G', 'T'],
    complementChar c ∈ ['A', 'C', 'G', 'T'] := by
  decide

/-- Complementing a nucleotide character twice gives it back. -/
lemma complementChar_involutive : ∀ c ∈ ['A', 'C', 'G', 'T'],
    complementChar (complementChar c) = c := by
  decide

/-- C8 (amended): for every nonempty string over the alphabet A, C, G, T,
applying reverse_complement_sequence twice returns the original string.
The frozen claim fails only on the empty string (over this alphabet),
which the function maps to None instead of itself (see the
counterexample). -/
theorem C8_reverse_complement_involution (s : List Char) (hne : s ≠ [])
    (h : ∀ c ∈ s, c ∈ ['A', 'C', 'G', 'T']) :
    reverse_complement_sequence (reverse_complement_sequence (some s)) = some s := by
  have hs1 : pyStrip s = s := pyStrip_id s (fun c hc => acgt_not_whitespace c (h c hc))
  have hmem2 : ∀ c ∈ seqReverseComplement s, c ∈ ['A', 'C', 'G', 'T'] := by
    intro c hc
    unfold seqReverseComplement at hc
    rw [List.mem_reverse] at hc
    obtain ⟨x, hx, rfl⟩ := List.mem_map.mp hc
    exact complementChar_mem x (h x hx)
  have hne2 : seqReverseComplement s ≠ [] := by
    unfold seqReverseComplement
    simp [hne]
  have hs2 : pyStrip (seqReverseComplement s) = seqReverseComplement s :=
    pyStrip_id _ (fun c hc => acgt_not_whitespace c (hmem2 c hc))
  have hrc1 : reverse_complement_sequence (some s) = some (seqReverseComplement s) := by
    unfold reverse_complement_sequence
    dsimp only []
    rw [hs1, if_neg hne]
  rw [hrc1]
  unfold reverse_complement_sequence
  dsimp only []
  rw [hs2, if_neg hne2]
  have hdouble : seqReverseComplement (seqReverseComplement s) = s := by
    unfold seqReverseComplement
    rw [List.map_reverse, List.reverse_reverse, List.map_map]
    have : ∀ c ∈ s, (complementChar ∘ complementChar) c = id c := by
      intro c hc
      exact complementChar_involutive c (h c hc)
    rw [List.map_congr_left this, List.map_id]
  rw [hdouble]

/-- C8 witness: the double reverse complement of ACGT is ACGT. -/
theorem C8_reverse_complement_involution_witness :
    ("ACGT".data ≠ []) ∧
    reverse_complement_sequence (reverse_complement_sequence (some "ACGT".data))
      = some "ACGT".data :=
  ⟨by decide, C8_reverse_complement_involution "ACGT".data (by decide) (by decide)⟩

/-- C8 counterexample: the empty string is a string over the alphabet, yet
the double application returns None, not the original string, because
reverse_complement_sequence maps an empty (stripped) sequence to None. -/
theorem C8_counterexample :
    reverse_complement_sequence (reverse_complement_sequence (some ([] : List Char)))
        = none ∧
      (none : Option (List Char)) ≠ some ([] : List Char) :=
  ⟨rfl, by decide⟩

/-- C9: parsing is a pure function of the file contents: two runs of
parse_sam_file on the same unchanged lines return the same accepted
records and the same stats, and the accepted records are exactly the
per-line accepted records of the file, in file order. -/
theorem C9_parse_idempotent (lines : List (List Char))
    (res1 res2 : List SamRecord) (st1 st2 : SamStats)
    (h1 : parse_sam_file lines = some (res1, st1))
    (h2 : parse_sam_file lines = some (res2, st2)) :
    res1 = res2 ∧ st1 = st2 ∧ res1 = acceptedRecordsSpec lines := by
  have h12 := h1.symm.trans h2
  simp only [Option.some.injEq, Prod.mk.injEq] at h12
  refine ⟨h12.1, h12.2, ?_⟩
  unfold parse_sam_file at h1
  cases haux : parseSamAux ⟨[], 0, 0, 0⟩ lines with
  | none =>
    rw [haux] at h1
    cases h1
  | some s =>
    rw [haux] at h1
    simp only [Option.map_some', Option.some.injEq, Prod.mk.injEq] at h1
    have hres := parseSamAux_results lines ⟨[], 0, 0, 0⟩ s haux
    simp only [List.nil_append] at hres
    rw [← h1.1, hres]

/-- C9 witness: two runs on a one-line file agree and return the single
accepted record of the file. -/
theorem C9_parse_idempotent_witness :
    parse_sam_file ["q\t0\tr\t7\t30\t5M\t*\t0\t0\tACGTA\tIIIII".data]
        = some ([⟨"q".data, 7, 30, "5M".data, "ACGTA".data⟩], ⟨1, 0, 0, 1⟩) ∧
    ([(⟨"q".data, 7, 30, "5M".data, "ACGTA".data⟩ : SamRecord)]
        = [⟨"q".data, 7, 30, "5M".data, "ACGTA".data⟩] ∧
      (⟨1, 0, 0, 1⟩ : SamStats) = ⟨1, 0, 0, 1⟩ ∧
      [(⟨"q".data, 7, 30, "5M".data, "ACGTA".data⟩ : SamRecord)]
        = acceptedRecordsSpec ["q\t0\tr\t7\t30\t5M\t*\t0\t0\tACGTA\tIIIII".data]) :=
  ⟨by decide,
   C9_parse_idempotent ["q\t0\tr\t7\t30\t5M\t*\t0\t0\tACGTA\tIIIII".data]
     [⟨"q".data, 7, 30, "5M".data, "ACGTA".data⟩]
     [⟨"q".data, 7, 30, "5M".data, "ACGTA".data⟩]
     ⟨1, 0, 0, 1⟩ ⟨1, 0, 0, 1⟩ (by decide) (by decide)⟩

/-- C10: the accepted counter in the stats returned by parse_sam_file
always equals the length of the accepted-record list it returns. -/
theorem C10_accepted_count (lines : List (List Char))
    (res : List SamRecord) (st : SamStats)
    (h : parse_sam_file lines = some (res, st)) :
    st.mapped_high_qual = res.length := by
  unfold parse_sam_file at h
  cases haux : parseSamAux ⟨[], 0, 0, 0⟩ lines with
  | none =>
    rw [haux] at h
    cases h
  | some s =>
    rw [haux] at h
    simp only [Option.map_some', Option.some.injEq, Prod.mk.injEq] at h
    rw [← h.2, ← h.1]

/-- C10 witness: a file with one accepted line yields accepted = 1 and a
one-element record list. -/
theorem C10_accepted_count_witness :
    parse_sam_file ["@h".data, "q\t0\tr\t7\t30\t5M\t*\t0\t0\tACGTA\tIIIII".data,
        "q\t4\tr\t7\t30\t5M\t*\t0\t0\tACGTA\tIIIII".data]
      = some ([⟨"q".data, 7, 30, "5M".data, "ACGTA".data⟩], ⟨2, 1, 0, 1⟩) ∧
    (⟨2, 1, 0, 1⟩ : SamStats).mapped_high_qual
      = [(⟨"q".data, 7, 30, "5M".data, "ACGTA".data⟩ : SamRecord)].length :=
  ⟨by decide,
   C10_accepted_count ["@h".data, "q\t0\tr\t7\t30\t5M\t*\t0\t0\tACGTA\tIIIII".data,
       "q\t4\tr\t7\t30\t5M\t*\t0\t0\tACGTA\tIIIII".data]
     [⟨"q".data, 7, 30, "5M".data, "ACGTA".data⟩] ⟨2, 1, 0, 1⟩ (by decide)⟩
